import Mathlib

/-!
# Planets_v3: a sun-and-planets Euler integrator

A shallow embedding of `src/Planets_v3.cpp`.

* The scalar type `K` stands for the C++ `double`.  Every definition is generic in `K`
  and in the square-root function, and uses only the operations the source uses
  (`+`, `-`, `*`, `/`, decimal literals, `sqrt`), so structural facts hold for every
  interpretation of the arithmetic.  Facts of exact arithmetic are stated at `K = ℝ` with
  `Real.sqrt`; facts that depend on rounding are stated at `K = Double`, the IEEE 754
  binary64 arithmetic, with `Double.sqrt`.
* `std::vector` is a `List`; `push_back` appends at the end.
* A `FILE*` is an `Option`: `none` is the null pointer, `some out` a stream on which the
  records `out` have been written so far.
-/

namespace Planets

/-! ## Constants -/

/-- Gravitational constant: `const double G = 1.0;`. -/
def G (K : Type) [OfScientific K] : K := 1.0

/-- Time step: `const double dt = 0.5;`. -/
def dt (K : Type) [OfScientific K] : K := 0.5

/-! ## Vector2D -/

/-- The struct `Vector2D`: two scalars `x`, `y`. -/
@[ext]
structure Vector2D (K : Type) where
  x : K
  y : K
deriving DecidableEq, Repr

namespace Vector2D

variable {K : Type}

/-- Operator `Vector2D::operator+`. -/
instance [Add K] : Add (Vector2D K) :=
  ⟨fun self other => ⟨self.x + other.x, self.y + other.y⟩⟩

/-- Operator `Vector2D::operator-`. -/
instance [Sub K] : Sub (Vector2D K) :=
  ⟨fun self other => ⟨self.x - other.x, self.y - other.y⟩⟩

/-- Operator `Vector2D::operator*(double scalar)`. -/
instance [Mul K] : HMul (Vector2D K) K (Vector2D K) :=
  ⟨fun self scalar => ⟨self.x * scalar, self.y * scalar⟩⟩

/-- Operator `Vector2D::operator/(double scalar)`. -/
instance [Div K] : HDiv (Vector2D K) K (Vector2D K) :=
  ⟨fun self scalar => ⟨self.x / scalar, self.y / scalar⟩⟩

end Vector2D

/-! ## Planet -/

/-- The struct `Planet`. -/
structure Planet (K : Type) where
  mass : K
  position : Vector2D K
  velocity : Vector2D K
  trail : List (Vector2D K)
deriving DecidableEq, Repr

namespace Planet

variable {K : Type} [Add K] [Sub K] [Mul K] [Div K] [OfScientific K]

/-- The constructor `Planet(double m, Vector2D p, Vector2D v)`: the trail starts empty. -/
def new (m : K) (p v : Vector2D K) : Planet K :=
  { mass := m, position := p, velocity := v, trail := [] }

/-- Method `Planet::Move`: `push_back` of the position, then the position update. -/
def Move (self : Planet K) : Planet K :=
  let trail := self.trail ++ [self.position]
  { self with trail := trail, position := self.position + self.velocity * dt K }

/-- Method `Planet::ApplyGravity`, with the `sqrt` of `<cmath>` passed in. -/
def ApplyGravity (sqrt : K → K) (self sun : Planet K) : Planet K :=
  let distance := sun.position - self.position
  let distanceMag := sqrt (distance.x * distance.x + distance.y * distance.y)
  let distanceUnit := distance / distanceMag
  let forceMag := G K * self.mass * sun.mass / (distanceMag * distanceMag)
  let force := distanceUnit * forceMag
  let acceleration := force / self.mass
  { self with velocity := self.velocity + acceleration * dt K }

end Planet

/-! ## SolarSystem -/

/-- The class `SolarSystem`. -/
structure SolarSystem (K : Type) where
  planets : List (Planet K)
  sun : Planet K
  size : K

/-- One record written on the gnuplot stream by an `fprintf` call; the fixed command
texts are kept as constructors. -/
inductive Record (K : Type) where
  /-- Data line `"%f %f\n"`. -/
  | point (x y : K)
  /-- End-of-data line `"e\n"`. -/
  | e
  /-- Empty line `"\n"`, which closes one trail. -/
  | blank
  /-- Command `"set terminal gif animate delay 10 size 800,800\n"`. -/
  | setTerminal
  /-- Command `"set output 'Multi_Planet_Sim.gif'\n"`. -/
  | setOutput
  /-- Command `"set xrange [-%f:%f]\n"`, both arguments being `bound`. -/
  | setXRange (bound : K)
  /-- Command `"set yrange [-%f:%f]\n"`, both arguments being `bound`. -/
  | setYRange (bound : K)
  /-- Command `"unset key\n"`. -/
  | unsetKey
  /-- Command `"set title 'Multi-Planet Simulation'\n"`. -/
  | setTitle
  /-- The `plot '-' ..., '-' ..., '-' ...` command that opens a frame. -/
  | plot
deriving DecidableEq, Repr

/-- A `FILE*` opened for writing: `none` is the null pointer. -/
abbrev File (K : Type) := Option (List (Record K))

/-- A call `fprintf(stream, ...)` writing the record `r`. On a null stream the C call is
undefined behaviour; the model leaves the null stream as it is. -/
def fprintf {K : Type} (stream : File K) (r : Record K) : File K :=
  stream.map (fun out => out ++ [r])

namespace SolarSystem

variable {K : Type} [Add K] [Sub K] [Mul K] [Div K] [OfScientific K]

/-- The constructor `SolarSystem(double size, const Planet& sun)`. -/
def new (size : K) (sun : Planet K) : SolarSystem K :=
  { planets := [], sun := sun, size := size }

/-- Method `SolarSystem::AddPlanet`. -/
def AddPlanet (self : SolarSystem K) (planet : Planet K) : SolarSystem K :=
  { self with planets := self.planets ++ [planet] }

/-- Method `SolarSystem::UpdatePlanets`: `Move` on every planet, in collection order. -/
def UpdatePlanets (self : SolarSystem K) : SolarSystem K :=
  { self with planets := self.planets.map (fun planet => planet.Move) }

/-- Method `SolarSystem::ApplyGravity`: `Planet::ApplyGravity(sun)` on every planet, in
collection order. The member `sun` is not an element of `planets`. -/
def ApplyGravity (sqrt : K → K) (self : SolarSystem K) : SolarSystem K :=
  { self with planets := self.planets.map (fun planet => planet.ApplyGravity sqrt self.sun) }

/-- Method `SolarSystem::StoreFrame`: the stream after the call. -/
def StoreFrame (self : SolarSystem K) (gnuplotPipe : File K) : File K :=
  match gnuplotPipe with
  | some _ =>
    -- Plot the sun
    let f := fprintf gnuplotPipe (.point self.sun.position.x self.sun.position.y)
    let f := fprintf f .e
    -- Plot the planets
    let f := self.planets.foldl
      (fun f planet => fprintf f (.point planet.position.x planet.position.y)) f
    let f := fprintf f .e
    -- Plot the trails of all planets
    let f := self.planets.foldl
      (fun f planet =>
        let f := planet.trail.foldl (fun f pos => fprintf f (.point pos.x pos.y)) f
        fprintf f .blank) f
    fprintf f .e
  | none => gnuplotPipe

/-- One tick as `main` performs it: `ApplyGravity()` then `UpdatePlanets()`. -/
def tick (sqrt : K → K) (self : SolarSystem K) : SolarSystem K :=
  (self.ApplyGravity sqrt).UpdatePlanets

/-- The state after `t` ticks. -/
def ticks (sqrt : K → K) : Nat → SolarSystem K → SolarSystem K
  | 0, self => self
  | t + 1, self => tick sqrt (ticks sqrt t self)

/-- What one tick does to one planet: `ApplyGravity(sun)` in the first pass, `Move()` in
the second. -/
def planetTick (sqrt : K → K) (sun planet : Planet K) : Planet K :=
  (planet.ApplyGravity sqrt sun).Move

end SolarSystem

/-! ## main -/

/-- One line printed on standard output. -/
inductive Printed where
  /-- Progress line `"Frame %d/ %d\n"`. -/
  | frame (frame frame_count : Nat)
  /-- Final line `"Done\n"`. -/
  | done
deriving DecidableEq, Repr

/-- The observable state of a run of `main`. -/
structure Run (K : Type) where
  solarSystem : SolarSystem K
  gnuplotPipe : File K
  stdout : List Printed

section main

variable {K : Type} [Add K] [Sub K] [Mul K] [Div K] [Neg K] [OfScientific K]

/-- Declaration `Planet sun(1e8, {0, 0}, {0, 0});`. -/
def sun : Planet K := Planet.new 1e8 ⟨0.0, 0.0⟩ ⟨0.0, 0.0⟩

/-- Declaration `Planet planet1(1e3, {-2000, -2000}, {80, -50});`. -/
def planet1 : Planet K := Planet.new 1e3 ⟨-2000.0, -2000.0⟩ ⟨80.0, -50.0⟩

/-- Declaration `Planet planet2(1e3, {-2000, -2000}, {150, 0});`. -/
def planet2 : Planet K := Planet.new 1e3 ⟨-2000.0, -2000.0⟩ ⟨150.0, 0.0⟩

/-- Declaration `Planet planet3(1e5, {-2000, -2000}, {50, -100});`. -/
def planet3 : Planet K := Planet.new 1e5 ⟨-2000.0, -2000.0⟩ ⟨50.0, -100.0⟩

/-- Declaration `Planet planet4(1e3, {-2000, -2000}, {100, 50});`. -/
def planet4 : Planet K := Planet.new 1e3 ⟨-2000.0, -2000.0⟩ ⟨100.0, 50.0⟩

/-- The system `main` has built when it reaches `popen`: the sun and the four planets. -/
def initialSystem : SolarSystem K :=
  let solarSystem := SolarSystem.new 10000.0 sun
  let solarSystem := solarSystem.AddPlanet planet1
  let solarSystem := solarSystem.AddPlanet planet2
  let solarSystem := solarSystem.AddPlanet planet3
  solarSystem.AddPlanet planet4

/-- Declaration `int frame_count = 250;`. -/
def frame_count : Nat := 250

/-- The body of the frame loop of `main`, for the loop counter `frame`. -/
def frameBody (sqrt : K → K) (run : Run K) (frame : Nat) : Run K :=
  let stdout :=
    if frame % 10 = 0 then run.stdout ++ [Printed.frame frame frame_count] else run.stdout
  let solarSystem := run.solarSystem.ApplyGravity sqrt
  let solarSystem := solarSystem.UpdatePlanets
  let gnuplotPipe := fprintf run.gnuplotPipe .plot
  let gnuplotPipe := solarSystem.StoreFrame gnuplotPipe
  { solarSystem := solarSystem, gnuplotPipe := gnuplotPipe, stdout := stdout }

/-- The function `main`; `popen` is what `popen("gnuplot -persist", "w")` returns, and the
result holds the system, the stream as it is when `pclose` is reached, and the lines
printed. -/
def main (sqrt : K → K) (popen : File K) : Run K :=
  let solarSystem : SolarSystem K := initialSystem
  let gnuplotPipe := popen
  let run : Run K :=
    match gnuplotPipe with
    | some _ =>
      let gnuplotPipe := fprintf gnuplotPipe .setTerminal
      let gnuplotPipe := fprintf gnuplotPipe .setOutput
      let gnuplotPipe := fprintf gnuplotPipe (.setXRange (solarSystem.size / 2.0))
      let gnuplotPipe := fprintf gnuplotPipe (.setYRange (solarSystem.size / 2.0))
      let gnuplotPipe := fprintf gnuplotPipe .unsetKey
      let gnuplotPipe := fprintf gnuplotPipe .setTitle
      (List.range frame_count).foldl (frameBody sqrt)
        { solarSystem := solarSystem, gnuplotPipe := gnuplotPipe, stdout := [] }
    | none => { solarSystem := solarSystem, gnuplotPipe := gnuplotPipe, stdout := [] }
  { run with stdout := run.stdout ++ [Printed.done] }

/-- The end-to-end scenario: the sun of `main` with `planet1` as its only planet. -/
def scenario : SolarSystem K :=
  (SolarSystem.new 10000.0 sun).AddPlanet planet1

end main

/-! ## Rearrangements -/

/-- The rearrangement of `l` described by the places `idx`: its `k`-th element is the
element of `l` at place `idx[k]` (places outside `l` are passed over). A permutation of
`l` is `reorder idx l` for `idx` a rearrangement of `0, ..., l.length - 1`. -/
def reorder {α : Type} (idx : List Nat) (l : List α) : List α :=
  idx.filterMap (fun i => l[i]?)

/-! ## Double arithmetic

The arithmetic of the C++ `double` under IEEE 754 binary64 in the default rounding mode
(to nearest, ties to even): every operation returns the double nearest to the exact
result, with gradual underflow, overflow to infinity, signed zeros and NaN. It is one
interpretation of the scalar type `K`; the reals are another. -/

/-- A value of the C++ type `double` as IEEE 754 binary64 defines it: `finite neg m e` is
`(-1)^neg * m * 2^e` (both zeros included), kept in the form `m < 2^53`,
`-1074 ≤ e ≤ 971`, and `2^52 ≤ m` unless `e = -1074`; `inf neg` is an infinity and `nan`
a NaN. -/
inductive Double where
  | finite (neg : Bool) (m : Nat) (e : Int)
  | inf (neg : Bool)
  | nan
deriving DecidableEq, Repr

namespace Double

/-- The integer `2 ^ k` for `k ≥ 0`, and `1` for `k < 0`. -/
def pow2 (k : Int) : Nat := 2 ^ k.toNat

/-- The number of binary digits of `n`, counted with at most `fuel` halvings. -/
def bitLengthAux : Nat → Nat → Nat
  | 0, _ => 0
  | fuel + 1, n => if n = 0 then 0 else bitLengthAux fuel (n / 2) + 1

/-- The exponent `⌊log2 n⌋` of a positive integer (`n` halvings are more than enough). -/
def log2 (n : Nat) : Nat := bitLengthAux n n - 1

/-- The exponent `⌊log2 (N / D)⌋` of a positive fraction. -/
def floorLog2 (N D : Nat) : Int :=
  let c : Int := (log2 N : Int) - (log2 D : Int)
  if D * pow2 c ≤ N * pow2 (-c) then c else c - 1

/-- Rounding to nearest, ties to even, of the fraction `num / den` to an integer. -/
def roundHalfEven (num den : Nat) : Nat :=
  let q := num / den
  let r := num % den
  if 2 * r < den then q
  else if den < 2 * r then q + 1
  else q + q % 2

/-- The double nearest to `(-1)^neg * (n / d) * 2^k` (ties to even), with gradual underflow
below `2^-1022` and overflow to infinity; `d` is positive. -/
def round (neg : Bool) (n d : Nat) (k : Int) : Double :=
  if n = 0 then finite neg 0 (-1074)
  else
    let N := n * pow2 k
    let D := d * pow2 (-k)
    let q : Int := max (floorLog2 N D - 52) (-1074)
    let m := roundHalfEven (N * pow2 (-q)) (D * pow2 q)
    let (m, q) := if m = 2 ^ 53 then (2 ^ 52, q + 1) else (m, q)
    if 971 < q then inf neg else finite neg m q

/-- The decimal literals of the source, each rounded to the nearest double. -/
instance : OfScientific Double :=
  ⟨fun mantissa exponentSign decimalExponent =>
    if exponentSign then round false mantissa (10 ^ decimalExponent) 0
    else round false (mantissa * 10 ^ decimalExponent) 1 0⟩

/-- Unary minus. -/
instance : Neg Double :=
  ⟨fun a => match a with
    | finite neg m e => finite (!neg) m e
    | inf neg => inf (!neg)
    | nan => nan⟩

/-- The sum of two doubles. -/
def add : Double → Double → Double
  | nan, _ => nan
  | _, nan => nan
  | inf a, inf b => if a = b then inf a else nan
  | inf a, finite _ _ _ => inf a
  | finite _ _ _, inf b => inf b
  | finite na ma ea, finite nb mb eb =>
    let e := min ea eb
    let A : Int := if na then -((ma * pow2 (ea - e) : Nat) : Int) else (ma * pow2 (ea - e) : Nat)
    let B : Int := if nb then -((mb * pow2 (eb - e) : Nat) : Int) else (mb * pow2 (eb - e) : Nat)
    let s := A + B
    if s = 0 then finite (na && nb) 0 (-1074)
    else round (decide (s < 0)) s.natAbs 1 e

/-- The product of two doubles. -/
def mul : Double → Double → Double
  | nan, _ => nan
  | _, nan => nan
  | inf a, inf b => inf (a != b)
  | inf a, finite nb mb _ => if mb = 0 then nan else inf (a != nb)
  | finite na ma _, inf b => if ma = 0 then nan else inf (na != b)
  | finite na ma ea, finite nb mb eb => round (na != nb) (ma * mb) 1 (ea + eb)

/-- The quotient of two doubles. -/
def div : Double → Double → Double
  | nan, _ => nan
  | _, nan => nan
  | inf _, inf _ => nan
  | inf a, finite nb _ _ => inf (a != nb)
  | finite na _ _, inf b => finite (na != b) 0 (-1074)
  | finite na ma ea, finite nb mb eb =>
    if mb = 0 then (if ma = 0 then nan else inf (na != nb))
    else round (na != nb) ma mb (ea - eb)

/-- Operator `+` on doubles. -/
instance : Add Double := ⟨add⟩

/-- Operator `-` on doubles: `a - b` is `a + (-b)`. -/
instance : Sub Double := ⟨fun a b => add a (-b)⟩

/-- Operator `*` on doubles. -/
instance : Mul Double := ⟨mul⟩

/-- Operator `/` on doubles. -/
instance : Div Double := ⟨div⟩

/-- The integer square root `⌊sqrt t⌋`, found bit by bit from bit `b - 1` down. -/
def isqrtAux (t : Nat) : Nat → Nat → Nat
  | 0, r => r
  | b + 1, r => if (r + 2 ^ b) * (r + 2 ^ b) ≤ t then isqrtAux t b (r + 2 ^ b) else isqrtAux t b r

/-- The integer square root `⌊sqrt t⌋`. -/
def isqrt (t : Nat) : Nat := isqrtAux t (log2 t / 2 + 1) 0

/-- The correctly rounded square root of `<cmath>`. -/
def sqrt : Double → Double
  | nan => nan
  | inf neg => if neg then nan else inf false
  | finite neg m e =>
    if m = 0 then finite neg 0 (-1074)
    else if neg then nan
    else
      let m2 := if e % 2 = 0 then m else 2 * m
      let e2 := if e % 2 = 0 then e else e - 1
      let t := m2 * 2 ^ 128
      let r := isqrt t
      let sticky := if r * r = t then 0 else 1
      round false (2 * r + sticky) 2 (e2 / 2 - 64)

/-- The comparison `==` of C++: a NaN equals nothing, and the two zeros are equal. -/
instance : BEq Double :=
  ⟨fun a b => match a, b with
    | nan, _ => false
    | _, nan => false
    | finite na ma ea, finite nb mb eb => (ma == 0 && mb == 0) || (na == nb && ma == mb && ea == eb)
    | inf a, inf b => a == b
    | _, _ => false⟩

end Double

/-! ## Gravity with guarded divisions -/

section guarded

variable {K : Type} [Add K] [Sub K] [Mul K] [Div K] [OfScientific K] [BEq K]

/-- The division `a / d`, refused when the divisor compares equal to zero. -/
def guardedDiv (a d : K) : Option K :=
  if d == 0.0 then none else some (a / d)

/-- Operator `Vector2D::operator/(double scalar)` with its two divisions guarded. -/
def Vector2D.guardedDiv (self : Vector2D K) (scalar : K) : Option (Vector2D K) :=
  match Planets.guardedDiv self.x scalar, Planets.guardedDiv self.y scalar with
  | some x, some y => some ⟨x, y⟩
  | _, _ => none

/-- Method `Planet::ApplyGravity` with every division guarded: the same statements in the
same order, with `none` as soon as a divisor (`distanceMag`, `distanceMag * distanceMag`
or `mass`) is zero. -/
def Planet.ApplyGravityGuarded (sqrt : K → K) (self sun : Planet K) : Option (Planet K) :=
  let distance := sun.position - self.position
  let distanceMag := sqrt (distance.x * distance.x + distance.y * distance.y)
  match distance.guardedDiv distanceMag with
  | none => none
  | some distanceUnit =>
    match Planets.guardedDiv (G K * self.mass * sun.mass) (distanceMag * distanceMag) with
    | none => none
    | some forceMag =>
      let force := distanceUnit * forceMag
      match force.guardedDiv self.mass with
      | none => none
      | some acceleration =>
        some { self with velocity := self.velocity + acceleration * dt K }

end guarded

/-! ## Snapshots and the interleaved tick -/

section descriptions

variable {K : Type} [Add K] [Sub K] [Mul K] [Div K] [OfScientific K]

/-- The frame snapshot as the specification words it: the sun's position and an `e`
record; the planets' positions in collection order and an `e` record; then, planet by
planet, the whole trail in trail order followed by a blank record, and a final `e`. -/
def SolarSystem.snapshot (self : SolarSystem K) : List (Record K) :=
  [Record.point self.sun.position.x self.sun.position.y, Record.e]
    ++ self.planets.map (fun planet => Record.point planet.position.x planet.position.y)
    ++ [Record.e]
    ++ self.planets.flatMap (fun planet =>
        planet.trail.map (fun pos => Record.point pos.x pos.y) ++ [Record.blank])
    ++ [Record.e]

/-- The loop `for (auto& planet : planets) { planet.ApplyGravity(sun); planet.Move(); }`
of an interleaved tick: each planet in turn gets gravity and is moved at once. -/
def SolarSystem.interleavedLoop (sqrt : K → K) (sun : Planet K) :
    List (Planet K) → List (Planet K)
  | [] => []
  | planet :: rest =>
    let planet := planet.ApplyGravity sqrt sun
    let planet := planet.Move
    planet :: SolarSystem.interleavedLoop sqrt sun rest

/-- The interleaved tick: one pass over the planets instead of the two of `tick`. -/
def SolarSystem.interleavedTick (sqrt : K → K) (self : SolarSystem K) : SolarSystem K :=
  { self with planets := SolarSystem.interleavedLoop sqrt self.sun self.planets }

end descriptions

/-! ## Projections of the vector operators -/

section projections

variable {K : Type}

@[simp] theorem Vector2D.add_x [Add K] (a b : Vector2D K) : (a + b).x = a.x + b.x := rfl
@[simp] theorem Vector2D.add_y [Add K] (a b : Vector2D K) : (a + b).y = a.y + b.y := rfl
@[simp] theorem Vector2D.sub_x [Sub K] (a b : Vector2D K) : (a - b).x = a.x - b.x := rfl
@[simp] theorem Vector2D.sub_y [Sub K] (a b : Vector2D K) : (a - b).y = a.y - b.y := rfl
@[simp] theorem Vector2D.mul_x [Mul K] (a : Vector2D K) (k : K) : (a * k).x = a.x * k := rfl
@[simp] theorem Vector2D.mul_y [Mul K] (a : Vector2D K) (k : K) : (a * k).y = a.y * k := rfl
@[simp] theorem Vector2D.div_x [Div K] (a : Vector2D K) (k : K) : (a / k).x = a.x / k := rfl
@[simp] theorem Vector2D.div_y [Div K] (a : Vector2D K) (k : K) : (a / k).y = a.y / k := rfl

end projections

/-! ## The constants over the reals -/

theorem G_real : G ℝ = 1 := by norm_num [G]

theorem dt_real : dt ℝ = 1 / 2 := by norm_num [dt]

/-! ## Gravity over the reals -/

/-- The separation `sqrt (dx * dx + dy * dy)` that `Planet::ApplyGravity` computes. -/
theorem distanceMag_eq (p s : Vector2D ℝ) :
    Real.sqrt ((s - p).x * (s - p).x + (s - p).y * (s - p).y)
      = Real.sqrt ((s.x - p.x) ^ 2 + (s.y - p.y) ^ 2) := by
  simp only [Vector2D.sub_x, Vector2D.sub_y, sq]

/-- Two distinct points have a positive separation. -/
theorem distanceMag_pos (p s : Vector2D ℝ) (h : s ≠ p) :
    0 < Real.sqrt ((s.x - p.x) ^ 2 + (s.y - p.y) ^ 2) := by
  apply Real.sqrt_pos.mpr
  by_contra hle
  have hx := sq_nonneg (s.x - p.x)
  have hy := sq_nonneg (s.y - p.y)
  have h0x : (s.x - p.x) ^ 2 = 0 := by linarith
  have h0y : (s.y - p.y) ^ 2 = 0 := by linarith
  have ex : s.x = p.x := by
    have := pow_eq_zero_iff (two_ne_zero) |>.mp h0x
    linarith
  have ey : s.y = p.y := by
    have := pow_eq_zero_iff (two_ne_zero) |>.mp h0y
    linarith
  apply h
  cases s; cases p; simp_all

/-- The body's own mass `m` cancels out of one component of the velocity update. -/
theorem mass_cancels (v d r m M : ℝ) (hm : m ≠ 0) :
    v + d / r * (1 * m * M / (r * r)) / m * (1 / 2) = v + M / (r * r) * (d / r) * (1 / 2) := by
  rcases eq_or_ne r 0 with h0 | h0
  · subst h0
    simp
  · field_simp
    ring

/-- The velocity written by `Planet::ApplyGravity`, component by component, once the
body's own mass is cancelled. -/
theorem ApplyGravity_velocity_real (b sun : Planet ℝ) (hm : b.mass ≠ 0) :
    (b.ApplyGravity Real.sqrt sun).velocity.x
        = b.velocity.x
          + sun.mass / Real.sqrt ((sun.position.x - b.position.x) ^ 2
                + (sun.position.y - b.position.y) ^ 2) ^ 2
            * ((sun.position.x - b.position.x)
                / Real.sqrt ((sun.position.x - b.position.x) ^ 2
                    + (sun.position.y - b.position.y) ^ 2)) * (1 / 2)
    ∧ (b.ApplyGravity Real.sqrt sun).velocity.y
        = b.velocity.y
          + sun.mass / Real.sqrt ((sun.position.x - b.position.x) ^ 2
                + (sun.position.y - b.position.y) ^ 2) ^ 2
            * ((sun.position.y - b.position.y)
                / Real.sqrt ((sun.position.x - b.position.x) ^ 2
                    + (sun.position.y - b.position.y) ^ 2)) * (1 / 2) := by
  simp only [Planet.ApplyGravity, Vector2D.add_x, Vector2D.add_y, Vector2D.mul_x,
    Vector2D.mul_y, Vector2D.div_x, Vector2D.div_y, G_real, dt_real,
    Vector2D.sub_x, Vector2D.sub_y, sq]
  generalize Real.sqrt ((sun.position.x - b.position.x) * (sun.position.x - b.position.x)
    + (sun.position.y - b.position.y) * (sun.position.y - b.position.y)) = r
  exact ⟨mass_cancels _ _ r _ _ hm, mass_cancels _ _ r _ _ hm⟩

/-! ## Claims about `Planet::ApplyGravity` -/

/-- C1: for a body of non-zero mass and an attractor `sun` placed elsewhere, at distance
`r = sqrt ((s.x - p.x)^2 + (s.y - p.y)^2)`, `Planet::ApplyGravity` sets each component
of the velocity to `v + (G * M / r^2) * ((s - p) / r) * dt` with `G = 1` and `dt = 0.5`
(over the reals); the divisor `r` is non-zero and the body's own mass does not occur. -/
theorem ApplyGravity_sets_velocity (b sun : Planet ℝ) (r : ℝ)
    (hm : b.mass ≠ 0) (hsp : sun.position ≠ b.position)
    (hr : r = Real.sqrt ((sun.position.x - b.position.x) ^ 2
      + (sun.position.y - b.position.y) ^ 2)) :
    G ℝ = 1 ∧ dt ℝ = 0.5 ∧ r ≠ 0
    ∧ (b.ApplyGravity Real.sqrt sun).velocity.x
        = b.velocity.x
          + (G ℝ * sun.mass / r ^ 2) * ((sun.position.x - b.position.x) / r) * dt ℝ
    ∧ (b.ApplyGravity Real.sqrt sun).velocity.y
        = b.velocity.y
          + (G ℝ * sun.mass / r ^ 2) * ((sun.position.y - b.position.y) / r) * dt ℝ := by
  have hpos := distanceMag_pos b.position sun.position hsp
  obtain ⟨hx, hy⟩ := ApplyGravity_velocity_real b sun hm
  refine ⟨G_real, by rw [dt_real]; norm_num, ?_, ?_, ?_⟩
  · rw [hr]
    exact ne_of_gt hpos
  · rw [hx, hr, G_real, dt_real, one_mul]
  · rw [hy, hr, G_real, dt_real, one_mul]

/-- C1 at a concrete input: a body of mass 2 at the origin with velocity `(1, 1)` and an
attractor of mass 5 at `(3, 4)`, hence `r = 5`. -/
theorem ApplyGravity_sets_velocity_witness :
    (Planet.ApplyGravity Real.sqrt (⟨2, ⟨0, 0⟩, ⟨1, 1⟩, []⟩ : Planet ℝ)
        ⟨5, ⟨3, 4⟩, ⟨0, 0⟩, []⟩).velocity.x = 53 / 50
    ∧ (Planet.ApplyGravity Real.sqrt (⟨2, ⟨0, 0⟩, ⟨1, 1⟩, []⟩ : Planet ℝ)
        ⟨5, ⟨3, 4⟩, ⟨0, 0⟩, []⟩).velocity.y = 27 / 25 := by
  have h5 : (5 : ℝ) = Real.sqrt ((3 - 0) ^ 2 + (4 - 0) ^ 2) := by
    rw [show ((3 : ℝ) - 0) ^ 2 + (4 - 0) ^ 2 = 5 ^ 2 by norm_num]
    exact (Real.sqrt_sq (by norm_num)).symm
  obtain ⟨hG, hdt, -, hx, hy⟩ :=
    ApplyGravity_sets_velocity (⟨2, ⟨0, 0⟩, ⟨1, 1⟩, []⟩ : Planet ℝ)
      ⟨5, ⟨3, 4⟩, ⟨0, 0⟩, []⟩ 5 (by norm_num)
      (by intro h; have := congrArg Vector2D.x h; norm_num at this) h5
  rw [hx, hy, hG, hdt]
  norm_num

/-- C2: two bodies of different non-zero masses with the same position and velocity, and
an attractor placed elsewhere: one `Planet::ApplyGravity` call on each leaves them with
equal velocities (over the reals). -/
theorem ApplyGravity_mass_independent (b₁ b₂ sun : Planet ℝ)
    (h₁ : b₁.mass ≠ 0) (h₂ : b₂.mass ≠ 0) (_hne : b₁.mass ≠ b₂.mass)
    (hp : b₁.position = b₂.position) (hv : b₁.velocity = b₂.velocity)
    (_hsp : sun.position ≠ b₁.position) :
    (b₁.ApplyGravity Real.sqrt sun).velocity = (b₂.ApplyGravity Real.sqrt sun).velocity := by
  obtain ⟨hx₁, hy₁⟩ := ApplyGravity_velocity_real b₁ sun h₁
  obtain ⟨hx₂, hy₂⟩ := ApplyGravity_velocity_real b₂ sun h₂
  have hx : (b₁.ApplyGravity Real.sqrt sun).velocity.x
      = (b₂.ApplyGravity Real.sqrt sun).velocity.x := by rw [hx₁, hx₂, hp, hv]
  have hy : (b₁.ApplyGravity Real.sqrt sun).velocity.y
      = (b₂.ApplyGravity Real.sqrt sun).velocity.y := by rw [hy₁, hy₂, hp, hv]
  cases hu : (b₁.ApplyGravity Real.sqrt sun).velocity
  cases hw : (b₂.ApplyGravity Real.sqrt sun).velocity
  rw [hu, hw] at hx hy
  simp only at hx hy
  rw [hx, hy]

/-- C2 at a concrete input: masses 2 and 7, both bodies at the origin with velocity
`(1, 1)`, attractor of mass 5 at `(3, 4)`. -/
theorem ApplyGravity_mass_independent_witness :
    (Planet.ApplyGravity Real.sqrt (⟨2, ⟨0, 0⟩, ⟨1, 1⟩, []⟩ : Planet ℝ)
        ⟨5, ⟨3, 4⟩, ⟨0, 0⟩, []⟩).velocity
      = (Planet.ApplyGravity Real.sqrt (⟨7, ⟨0, 0⟩, ⟨1, 1⟩, []⟩ : Planet ℝ)
        ⟨5, ⟨3, 4⟩, ⟨0, 0⟩, []⟩).velocity :=
  ApplyGravity_mass_independent ⟨2, ⟨0, 0⟩, ⟨1, 1⟩, []⟩ ⟨7, ⟨0, 0⟩, ⟨1, 1⟩, []⟩
    ⟨5, ⟨3, 4⟩, ⟨0, 0⟩, []⟩ (by norm_num) (by norm_num) (by norm_num) rfl rfl
    (by intro h; have := congrArg Vector2D.x h; norm_num at this)

/-- C3: for a body of non-zero mass at distance `r > 0` from an attractor of mass
`M ≥ 0`, the Euclidean norm of (velocity after `Planet::ApplyGravity` minus velocity
before), divided by `dt`, is `G * M / r^2` (over the reals). -/
theorem ApplyGravity_acceleration_norm (b sun : Planet ℝ) (r : ℝ)
    (hm : b.mass ≠ 0) (hM : 0 ≤ sun.mass)
    (hr : r = Real.sqrt ((sun.position.x - b.position.x) ^ 2
      + (sun.position.y - b.position.y) ^ 2))
    (hpos : 0 < r) :
    Real.sqrt (((b.ApplyGravity Real.sqrt sun).velocity - b.velocity).x ^ 2
        + ((b.ApplyGravity Real.sqrt sun).velocity - b.velocity).y ^ 2) / dt ℝ
      = G ℝ * sun.mass / r ^ 2 := by
  obtain ⟨hx, hy⟩ := ApplyGravity_velocity_real b sun hm
  have hsq : (sun.position.x - b.position.x) ^ 2 + (sun.position.y - b.position.y) ^ 2
      = r ^ 2 := by
    rw [hr, Real.sq_sqrt (by positivity)]
  have hr0 : r ≠ 0 := ne_of_gt hpos
  simp only [Vector2D.sub_x, Vector2D.sub_y, hx, hy, ← hr, G_real, dt_real]
  have hsum : (b.velocity.x + sun.mass / r ^ 2 * ((sun.position.x - b.position.x) / r)
        * (1 / 2) - b.velocity.x) ^ 2
      + (b.velocity.y + sun.mass / r ^ 2 * ((sun.position.y - b.position.y) / r)
        * (1 / 2) - b.velocity.y) ^ 2
      = (sun.mass / r ^ 2 * (1 / 2)) ^ 2 := by
    have hfac : (b.velocity.x + sun.mass / r ^ 2 * ((sun.position.x - b.position.x) / r)
          * (1 / 2) - b.velocity.x) ^ 2
        + (b.velocity.y + sun.mass / r ^ 2 * ((sun.position.y - b.position.y) / r)
          * (1 / 2) - b.velocity.y) ^ 2
        = (sun.mass / r ^ 2 * (1 / 2)) ^ 2
          * (((sun.position.x - b.position.x) ^ 2 + (sun.position.y - b.position.y) ^ 2)
            / r ^ 2) := by
      field_simp
      ring
    rw [hfac, hsq, div_self (pow_ne_zero 2 hr0), mul_one]
  rw [hsum, Real.sqrt_sq (by positivity)]
  field_simp
  ring

/-- C3 at a concrete input: body of mass 2 at the origin, attractor of mass 5 at
`(3, 4)`, so `r = 5` and the acceleration has norm `5 / 25`. -/
theorem ApplyGravity_acceleration_norm_witness :
    Real.sqrt (((Planet.ApplyGravity Real.sqrt (⟨2, ⟨0, 0⟩, ⟨1, 1⟩, []⟩ : Planet ℝ)
          ⟨5, ⟨3, 4⟩, ⟨0, 0⟩, []⟩).velocity - (⟨1, 1⟩ : Vector2D ℝ)).x ^ 2
        + ((Planet.ApplyGravity Real.sqrt (⟨2, ⟨0, 0⟩, ⟨1, 1⟩, []⟩ : Planet ℝ)
          ⟨5, ⟨3, 4⟩, ⟨0, 0⟩, []⟩).velocity - (⟨1, 1⟩ : Vector2D ℝ)).y ^ 2) / dt ℝ
      = G ℝ * 5 / 5 ^ 2 := by
  have h5 : (5 : ℝ) = Real.sqrt ((3 - 0) ^ 2 + (4 - 0) ^ 2) := by
    rw [show ((3 : ℝ) - 0) ^ 2 + (4 - 0) ^ 2 = 5 ^ 2 by norm_num]
    exact (Real.sqrt_sq (by norm_num)).symm
  exact ApplyGravity_acceleration_norm (⟨2, ⟨0, 0⟩, ⟨1, 1⟩, []⟩ : Planet ℝ)
    ⟨5, ⟨3, 4⟩, ⟨0, 0⟩, []⟩ 5 (by norm_num) (by norm_num) h5 (by norm_num)

/-! ## Claims about `Planet::Move` -/

section move

variable {K : Type} [Add K] [Mul K] [OfScientific K]

/-- C4: `Planet::Move` appends the current position as the new last element of the trail
(new trail = old trail followed by the old position, so the old trail is a prefix and the
length grows by exactly one), sets the position to old position + velocity * dt, and
leaves velocity and mass unchanged. It holds for every interpretation of the scalars. -/
theorem Move_appends_and_advances (b : Planet K) :
    b.Move.trail = b.trail ++ [b.position]
    ∧ b.trail <+: b.Move.trail
    ∧ b.Move.trail.length = b.trail.length + 1
    ∧ b.Move.trail.getLast? = some b.position
    ∧ b.Move.position = b.position + b.velocity * dt K
    ∧ b.Move.velocity = b.velocity
    ∧ b.Move.mass = b.mass := by
  refine ⟨rfl, ⟨[b.position], rfl⟩, ?_, ?_, rfl, rfl, rfl⟩
  · simp [Planet.Move]
  · simp [Planet.Move]

end move

/-! ## Ticks of the whole system -/

section ticks

variable {K : Type} [Add K] [Sub K] [Mul K] [Div K] [OfScientific K]

open SolarSystem

/-- The method `Planet::ApplyGravity` leaves the position as it is. -/
theorem ApplyGravity_position (sqrt : K → K) (b sun : Planet K) :
    (b.ApplyGravity sqrt sun).position = b.position := rfl

/-- The method `Planet::ApplyGravity` leaves the trail as it is. -/
theorem ApplyGravity_trail (sqrt : K → K) (b sun : Planet K) :
    (b.ApplyGravity sqrt sun).trail = b.trail := rfl

/-- One tick of one planet appends its position to its trail. -/
theorem planetTick_trail (sqrt : K → K) (sun b : Planet K) :
    (planetTick sqrt sun b).trail = b.trail ++ [b.position] := rfl

/-- A tick maps `planetTick` over the planets. -/
theorem tick_planets (sqrt : K → K) (sys : SolarSystem K) :
    (tick sqrt sys).planets = sys.planets.map (planetTick sqrt sys.sun) := by
  simp [tick, SolarSystem.ApplyGravity, SolarSystem.UpdatePlanets, planetTick,
    List.map_map, Function.comp_def]

/-- A tick leaves the sun as it is. -/
theorem tick_sun (sqrt : K → K) (sys : SolarSystem K) : (tick sqrt sys).sun = sys.sun := rfl

/-- Any number of ticks leaves the sun as it is. -/
theorem ticks_sun (sqrt : K → K) (sys : SolarSystem K) (t : Nat) :
    (ticks sqrt t sys).sun = sys.sun := by
  induction t with
  | zero => rfl
  | succ t ih => rw [ticks, tick_sun, ih]

/-- After `t` ticks every planet has been through `planetTick` `t` times. -/
theorem ticks_planets (sqrt : K → K) (sys : SolarSystem K) (t : Nat) :
    (ticks sqrt t sys).planets = sys.planets.map (planetTick sqrt sys.sun)^[t] := by
  induction t with
  | zero => simp [ticks]
  | succ t ih =>
    rw [ticks, tick_planets, ih, ticks_sun, List.map_map]
    congr 1
    funext b
    simp [Function.iterate_succ_apply']

/-- The trail of one planet after `t` ticks: the trail it started with, then its
positions after `0, 1, ..., t - 1` ticks. -/
theorem iterate_planetTick_trail (sqrt : K → K) (sun b : Planet K) (t : Nat) :
    ((planetTick sqrt sun)^[t] b).trail
      = b.trail ++ (List.range t).map (fun i => ((planetTick sqrt sun)^[i] b).position) := by
  induction t with
  | zero => simp
  | succ t ih =>
    rw [Function.iterate_succ_apply', planetTick_trail, ih, List.range_succ, List.map_append,
      List.append_assoc]
    rfl

/-- The trail of a planet grows by one position per tick. -/
theorem iterate_planetTick_trail_length (sqrt : K → K) (sun b : Planet K) (t : Nat) :
    ((SolarSystem.planetTick sqrt sun)^[t] b).trail.length = b.trail.length + t := by
  rw [iterate_planetTick_trail, List.length_append, List.length_map, List.length_range]

/-- C5: in a system whose planets start with empty trails, after `t` ticks
(`SolarSystem::ApplyGravity` then `SolarSystem::UpdatePlanets`, `t` times) the planets are
as many as before, every planet's trail has length exactly `t`, for every `i < t` its
`trail[i]` is that planet's position immediately before its `(i+1)`-th `Move` (its
position in the state reached by `i` ticks followed by `ApplyGravity`), and `trail[0]`
is its initial position. -/
theorem trail_after_ticks (sqrt : K → K) (sys : SolarSystem K)
    (hempty : ∀ p ∈ sys.planets, p.trail = []) (t : Nat) :
    (ticks sqrt t sys).planets.length = sys.planets.length
    ∧ ∀ (j : Nat) (p : Planet K), (ticks sqrt t sys).planets[j]? = some p →
        p.trail.length = t
        ∧ (∀ i, i < t →
            ∃ q, ((ticks sqrt i sys).ApplyGravity sqrt).planets[j]? = some q
              ∧ p.trail[i]? = some q.position)
        ∧ (0 < t → ∃ p₀, sys.planets[j]? = some p₀ ∧ p.trail[0]? = some p₀.position) := by
  refine ⟨by simp [ticks_planets], ?_⟩
  intro j p hp
  rw [ticks_planets, List.getElem?_map] at hp
  cases h0 : sys.planets[j]? with
  | none => simp [h0] at hp
  | some p₀ =>
    rw [h0] at hp
    simp only [Option.map_some', Option.some.injEq] at hp
    subst hp
    have hmem : p₀ ∈ sys.planets := List.getElem?_mem h0
    have htr := iterate_planetTick_trail sqrt sys.sun p₀ t
    rw [hempty p₀ hmem, List.nil_append] at htr
    refine ⟨by rw [htr]; simp, ?_, ?_⟩
    · intro i hi
      refine ⟨((planetTick sqrt sys.sun)^[i] p₀).ApplyGravity sqrt sys.sun, ?_, ?_⟩
      · simp [SolarSystem.ApplyGravity, ticks_planets, ticks_sun, h0]
      · rw [htr]
        simp [hi, ApplyGravity_position]
    · intro ht
      refine ⟨p₀, rfl, ?_⟩
      rw [htr]
      simp [ht]

/-- C8: one tick does not depend on the order of the planets. For planet lists that are
permutations of each other the results are permutations of each other; more precisely
the tick commutes with every rearrangement `reorder idx`, so the same rearrangement
relates the results, and a body's result is `planetTick` of that body and the sun alone,
whatever its place and whichever other bodies are present. -/
theorem tick_order_independent (sqrt : K → K) (sun : Planet K) (size : K)
    (l₁ l₂ : List (Planet K)) (hperm : l₁.Perm l₂) :
    (tick sqrt ⟨l₁, sun, size⟩).planets.Perm (tick sqrt ⟨l₂, sun, size⟩).planets
    ∧ (∀ idx : List Nat,
        (tick sqrt ⟨reorder idx l₁, sun, size⟩).planets
          = reorder idx (tick sqrt ⟨l₁, sun, size⟩).planets)
    ∧ (∀ (j : Nat) (b : Planet K), l₁[j]? = some b →
        (tick sqrt ⟨l₁, sun, size⟩).planets[j]? = some (planetTick sqrt sun b))
    ∧ (∀ A B : Planet K,
        (tick sqrt ⟨[A, B], sun, size⟩).planets = [planetTick sqrt sun A, planetTick sqrt sun B]
        ∧ (tick sqrt ⟨[B, A], sun, size⟩).planets
            = [planetTick sqrt sun B, planetTick sqrt sun A]) := by
  refine ⟨?_, ?_, ?_, ?_⟩
  · rw [tick_planets, tick_planets]
    exact hperm.map _
  · intro idx
    rw [tick_planets, tick_planets]
    simp only [reorder, List.map_filterMap, List.getElem?_map]
  · intro j b hb
    rw [tick_planets, List.getElem?_map, hb]
    rfl
  · intro A B
    exact ⟨tick_planets sqrt _, tick_planets sqrt _⟩

/-- C9: `SolarSystem::ApplyGravity`, `SolarSystem::UpdatePlanets` and
`SolarSystem::AddPlanet` leave the sun (its mass, position, velocity and trail) as it is,
and so does any number of ticks. -/
theorem sun_unchanged (sqrt : K → K) (sys : SolarSystem K) (planet : Planet K) (t : Nat) :
    (sys.ApplyGravity sqrt).sun = sys.sun
    ∧ sys.UpdatePlanets.sun = sys.sun
    ∧ (sys.AddPlanet planet).sun = sys.sun
    ∧ (ticks sqrt t sys).sun = sys.sun
    ∧ (ticks sqrt t sys).sun.mass = sys.sun.mass
    ∧ (ticks sqrt t sys).sun.position = sys.sun.position
    ∧ (ticks sqrt t sys).sun.velocity = sys.sun.velocity
    ∧ (ticks sqrt t sys).sun.trail = sys.sun.trail := by
  have h := ticks_sun sqrt sys t
  exact ⟨rfl, rfl, rfl, h, by rw [h], by rw [h], by rw [h], by rw [h]⟩

end ticks

/-- C5 at a concrete input: the system of `main` over the reals, after 250 ticks; its
first planet has a trail of length 250 that starts with the initial position of
`planet1`. -/
theorem trail_after_ticks_witness :
    ∃ p : Planet ℝ, (SolarSystem.ticks Real.sqrt 250 initialSystem).planets[0]? = some p
      ∧ p.trail.length = 250 ∧ p.trail[0]? = some (⟨-2000.0, -2000.0⟩ : Vector2D ℝ) := by
  obtain ⟨hlen, h⟩ := trail_after_ticks Real.sqrt (initialSystem : SolarSystem ℝ)
    (by simp [initialSystem, SolarSystem.AddPlanet, SolarSystem.new, planet1, planet2,
      planet3, planet4, Planet.new]) 250
  have hpos : 0 < (SolarSystem.ticks Real.sqrt 250 (initialSystem : SolarSystem ℝ)).planets.length := by
    rw [hlen]
    simp [initialSystem, SolarSystem.AddPlanet, SolarSystem.new]
  have hget := List.getElem?_eq_getElem hpos
  obtain ⟨h1, -, h3⟩ := h 0 _ hget
  obtain ⟨p₀, hp₀, h0⟩ := h3 (by norm_num)
  refine ⟨_, hget, h1, ?_⟩
  rw [h0]
  simp [initialSystem, SolarSystem.AddPlanet, SolarSystem.new, planet1, Planet.new] at hp₀
  rw [← hp₀]

/-- C8 at a concrete input: the orders `[planet1, planet3]` and `[planet3, planet1]`
under the sun of `main`, over the reals. -/
theorem tick_order_independent_witness :
    (SolarSystem.tick Real.sqrt ⟨[planet1, planet3], sun, 10000⟩).planets.Perm
      (SolarSystem.tick Real.sqrt ⟨[planet3, planet1], (sun : Planet ℝ), 10000⟩).planets :=
  (tick_order_independent Real.sqrt sun 10000 [planet1, planet3] [planet3, planet1]
    (List.Perm.swap _ _ _)).1

/-! ## The end-to-end scenario over the reals -/

/-- The gravity pull of the scenario on one velocity component: `6.25 / sqrt 2`. -/
theorem scenario_pull (v : ℝ) :
    v + 1e8 / Real.sqrt ((0.0 - -2000.0) ^ 2 + (0.0 - -2000.0) ^ 2) ^ 2
        * ((0.0 - -2000.0) / Real.sqrt ((0.0 - -2000.0) ^ 2 + (0.0 - -2000.0) ^ 2)) * (1 / 2)
      = v + 6.25 / Real.sqrt 2 := by
  have hs : Real.sqrt (((0.0 : ℝ) - -2000.0) ^ 2 + (0.0 - -2000.0) ^ 2)
      = 2000 * Real.sqrt 2 := by
    rw [show ((0.0 : ℝ) - -2000.0) ^ 2 + (0.0 - -2000.0) ^ 2 = 2000 ^ 2 * 2 by norm_num,
      Real.sqrt_mul (by positivity), Real.sqrt_sq (by norm_num)]
  have h2 : Real.sqrt 2 ≠ 0 := by positivity
  have hsq : Real.sqrt 2 ^ 2 = 2 := Real.sq_sqrt (by norm_num)
  rw [hs, mul_pow, hsq]
  field_simp
  ring

/-- In the scenario `Planet::ApplyGravity` turns the velocity `(80, -50)` of `planet1`
into `(80 + 6.25 / sqrt 2, -50 + 6.25 / sqrt 2)`. -/
theorem scenario_gravity :
    ((planet1 : Planet ℝ).ApplyGravity Real.sqrt sun).velocity
      = ⟨80 + 6.25 / Real.sqrt 2, -50 + 6.25 / Real.sqrt 2⟩ := by
  obtain ⟨hx, hy⟩ := ApplyGravity_velocity_real (planet1 : Planet ℝ) sun
    (by norm_num [planet1, Planet.new])
  simp only [planet1, sun, Planet.new] at hx hy
  rw [scenario_pull] at hx hy
  ext
  · refine hx.trans ?_
    norm_num
  · refine hy.trans ?_
    norm_num

/-- Bounds on `6.25 / sqrt 2`. -/
theorem scenario_pull_bounds :
    (4.41 : ℝ) < 6.25 / Real.sqrt 2 ∧ 6.25 / Real.sqrt 2 < (4.43 : ℝ) := by
  have hlo : (1.411 : ℝ) < Real.sqrt 2 := by
    rw [Real.lt_sqrt (by norm_num)]
    norm_num
  have hhi : Real.sqrt 2 < (1.417 : ℝ) := by
    rw [Real.sqrt_lt' (by norm_num)]
    norm_num
  have hpos : (0 : ℝ) < Real.sqrt 2 := by positivity
  constructor
  · rw [lt_div_iff₀ hpos]
    linarith
  · rw [div_lt_iff₀ hpos]
    linarith

/-- In the scenario one tick turns the single planet `planet1` into
`planetTick sun planet1`. -/
theorem scenario_tick :
    (SolarSystem.tick Real.sqrt (scenario : SolarSystem ℝ)).planets
      = [SolarSystem.planetTick Real.sqrt sun planet1] := by
  rw [tick_planets]
  rfl

/-- C6: in the end-to-end scenario (sun of mass 1e8 at the origin at rest, one planet of
mass 1e3 at `(-2000, -2000)` with velocity `(80, -50)`, `G = 1`, `dt = 0.5`), after one
tick the planet's velocity is `(80 + 6.25 / sqrt 2, -50 + 6.25 / sqrt 2)`, and each
component is within 0.01 of `(84.42, -45.58)`. -/
theorem scenario_velocity_after_tick :
    (SolarSystem.tick Real.sqrt (scenario : SolarSystem ℝ)).planets.map (fun p => p.velocity)
      = [⟨80 + 6.25 / Real.sqrt 2, -50 + 6.25 / Real.sqrt 2⟩]
    ∧ |80 + 6.25 / Real.sqrt 2 - 84.42| < (0.01 : ℝ)
    ∧ |-50 + 6.25 / Real.sqrt 2 - (-45.58)| < (0.01 : ℝ) := by
  obtain ⟨hlo, hhi⟩ := scenario_pull_bounds
  refine ⟨?_, ?_, ?_⟩
  · rw [scenario_tick, List.map_cons, List.map_nil]
    exact congrArg (fun v => [v]) scenario_gravity
  · rw [abs_lt]
    constructor <;> linarith
  · rw [abs_lt]
    constructor <;> linarith

/-- C7, as stated, fails: after one tick of the scenario the planet's position is neither
old position + pre-tick velocity * dt nor `(-1960, -2025)`. -/
theorem scenario_position_not_pre_tick :
    (SolarSystem.tick Real.sqrt (scenario : SolarSystem ℝ)).planets.map (fun p => p.position)
      ≠ [(planet1 : Planet ℝ).position + (planet1 : Planet ℝ).velocity * dt ℝ]
    ∧ (SolarSystem.tick Real.sqrt (scenario : SolarSystem ℝ)).planets.map (fun p => p.position)
      ≠ [⟨-1960, -2025⟩] := by
  obtain ⟨hlo, -⟩ := scenario_pull_bounds
  have hpos : (SolarSystem.tick Real.sqrt (scenario : SolarSystem ℝ)).planets.map
      (fun p => p.position)
      = [⟨-2000.0 + (80 + 6.25 / Real.sqrt 2) * dt ℝ,
          -2000.0 + (-50 + 6.25 / Real.sqrt 2) * dt ℝ⟩] := by
    rw [scenario_tick, List.map_cons, List.map_nil]
    show [(planet1 : Planet ℝ).position
      + ((planet1 : Planet ℝ).ApplyGravity Real.sqrt sun).velocity * dt ℝ] = _
    rw [scenario_gravity]
    rfl
  rw [hpos, dt_real]
  constructor
  · intro h
    have hx := congrArg Vector2D.x (List.head_eq_of_cons_eq h)
    simp only [planet1, Planet.new, Vector2D.add_x, Vector2D.mul_x, dt_real] at hx
    norm_num at hx
    linarith
  · intro h
    have hx := congrArg Vector2D.x (List.head_eq_of_cons_eq h)
    norm_num at hx
    linarith

/-- C7 amended: after one tick of the scenario the planet's position is old position +
post-gravity velocity * dt, that is `(-1960 + 3.125 / sqrt 2, -2025 + 3.125 / sqrt 2)`. -/
theorem scenario_position_after_tick :
    (SolarSystem.tick Real.sqrt (scenario : SolarSystem ℝ)).planets.map (fun p => p.position)
      = [(planet1 : Planet ℝ).position
          + ((planet1 : Planet ℝ).ApplyGravity Real.sqrt sun).velocity * dt ℝ]
    ∧ (planet1 : Planet ℝ).position
          + ((planet1 : Planet ℝ).ApplyGravity Real.sqrt sun).velocity * dt ℝ
        = ⟨-1960 + 3.125 / Real.sqrt 2, -2025 + 3.125 / Real.sqrt 2⟩ := by
  refine ⟨by rw [scenario_tick]; rfl, ?_⟩
  rw [scenario_gravity, dt_real]
  ext
  · simp only [planet1, Planet.new, Vector2D.add_x, Vector2D.mul_x]
    norm_num
    ring
  · simp only [planet1, Planet.new, Vector2D.add_y, Vector2D.mul_y]
    norm_num
    ring

/-! ## The driver -/

section driver

variable {K : Type} [Add K] [Sub K] [Mul K] [Div K] [OfScientific K]

/-- One pass through the loop body applies one tick to the system. -/
theorem frameBody_solarSystem (sqrt : K → K) (run : Run K) (frame : Nat) :
    (frameBody sqrt run frame).solarSystem = SolarSystem.tick sqrt run.solarSystem := rfl

/-- The frame loop run for `n` frames applies `n` ticks to the system. -/
theorem frameLoop_solarSystem (sqrt : K → K) (run : Run K) (n : Nat) :
    ((List.range n).foldl (frameBody sqrt) run).solarSystem
      = SolarSystem.ticks sqrt n run.solarSystem := by
  induction n with
  | zero => rfl
  | succ n ih =>
    rw [List.range_succ, List.foldl_append, List.foldl_cons, List.foldl_nil,
      frameBody_solarSystem, ih]
    rfl

variable [Neg K]

/-- With a stream, `main` leaves the system in the state reached by 250 ticks. -/
theorem main_some_solarSystem (sqrt : K → K) (out : List (Record K)) :
    (main sqrt (some out)).solarSystem = SolarSystem.ticks sqrt 250 initialSystem := by
  simp only [main]
  exact frameLoop_solarSystem sqrt _ frame_count

/-- C10 amended: when `popen` returns a null pipe, `main` skips the whole frame loop: no
record is written, no tick is applied, the system keeps its initial state (the four
planets with empty trails) and only the final line is printed; with a stream, the 250
ticks are applied. -/
theorem main_null_pipe_skips_ticks (sqrt : K → K) (out : List (Record K)) :
    (main sqrt none).solarSystem = initialSystem
    ∧ (main sqrt none).solarSystem.planets = [planet1, planet2, planet3, planet4]
    ∧ (main sqrt none).gnuplotPipe = none
    ∧ (main sqrt none).stdout = [Printed.done]
    ∧ (main sqrt (some out)).solarSystem = SolarSystem.ticks sqrt 250 initialSystem :=
  ⟨rfl, rfl, rfl, rfl, main_some_solarSystem sqrt out⟩

end driver

/-- C10, as stated, fails: over the reals the planets that `main` leaves behind with a
null pipe differ from those it leaves behind with a stream (no tick against 250). -/
theorem main_null_pipe_differs :
    (main Real.sqrt none).solarSystem.planets
      ≠ (main Real.sqrt (some [])).solarSystem.planets := by
  intro h
  rw [main_some_solarSystem, ticks_planets] at h
  have h0 := congrArg (fun l => (l.map (fun p => p.trail.length)).head?) h
  have hl := iterate_planetTick_trail_length Real.sqrt
    (initialSystem : SolarSystem ℝ).sun planet1 250
  simp only [main, initialSystem, SolarSystem.AddPlanet, SolarSystem.new, List.nil_append,
    List.cons_append, List.map_cons, List.head?_cons, Option.some.injEq] at h0 hl
  rw [hl] at h0
  simp [planet1, Planet.new] at h0

/-! ## Adding planets -/

/-- C13: `SolarSystem::AddPlanet(b)` yields the old collection followed by `b`: the
length grows by exactly one, the planets added before keep their places and states, and
`b` is accepted also when an equal planet is already there (adding it twice gives two
copies); the sun and the size are untouched. -/
theorem AddPlanet_appends {K : Type} (sys : SolarSystem K) (b : Planet K) :
    (sys.AddPlanet b).planets = sys.planets ++ [b]
    ∧ (sys.AddPlanet b).planets.length = sys.planets.length + 1
    ∧ sys.planets <+: (sys.AddPlanet b).planets
    ∧ (sys.AddPlanet b).planets.take sys.planets.length = sys.planets
    ∧ (sys.AddPlanet b).planets.getLast? = some b
    ∧ ((sys.AddPlanet b).AddPlanet b).planets = sys.planets ++ [b, b]
    ∧ (sys.AddPlanet b).sun = sys.sun
    ∧ (sys.AddPlanet b).size = sys.size := by
  refine ⟨rfl, ?_, ⟨[b], rfl⟩, ?_, ?_, ?_, rfl, rfl⟩
  · simp [SolarSystem.AddPlanet]
  · simp [SolarSystem.AddPlanet]
  · simp [SolarSystem.AddPlanet]
  · simp [SolarSystem.AddPlanet]

/-! ## Vector algebra over the reals -/

/-- C14: for all `Vector2D` values `a` and `b` over the reals, `(a + b) - b = a`:
`Vector2D::operator-` undoes `Vector2D::operator+`. -/
theorem Vector2D_add_sub_cancel (a b : Vector2D ℝ) : (a + b) - b = a := by
  ext
  · simp only [Vector2D.sub_x, Vector2D.add_x, add_sub_cancel_right]
  · simp only [Vector2D.sub_y, Vector2D.add_y, add_sub_cancel_right]

/-- C15: for every `Vector2D` value `a` and every scalar `k ≠ 0` over the reals,
`(a * k) / k = a`: scalar division undoes scalar multiplication. -/
theorem Vector2D_mul_div_cancel (a : Vector2D ℝ) (k : ℝ) (hk : k ≠ 0) : (a * k) / k = a := by
  ext
  · simp only [Vector2D.div_x, Vector2D.mul_x]
    exact mul_div_cancel_right₀ a.x hk
  · simp only [Vector2D.div_y, Vector2D.mul_y]
    exact mul_div_cancel_right₀ a.y hk

/-- C15 at a concrete input: the vector `(3, 4)` and the scalar `2`. -/
theorem Vector2D_mul_div_cancel_witness :
    ((⟨3, 4⟩ : Vector2D ℝ) * (2 : ℝ)) / (2 : ℝ) = ⟨3, 4⟩ :=
  Vector2D_mul_div_cancel ⟨3, 4⟩ 2 (by norm_num)

/-! ## What a tick reads and writes -/

section effects

variable {K : Type} [Add K] [Sub K] [Mul K] [Div K] [OfScientific K]

open SolarSystem

/-- After one tick of one planet, the position is the last trail element plus the
velocity times `dt`. -/
theorem planetTick_position (sqrt : K → K) (sun b : Planet K) :
    (planetTick sqrt sun b).trail.getLast? = some b.position
    ∧ (planetTick sqrt sun b).position = b.position + (planetTick sqrt sun b).velocity * dt K := by
  refine ⟨?_, rfl⟩
  rw [planetTick_trail]
  simp

/-- C16: after one full tick (`SolarSystem::ApplyGravity` then
`SolarSystem::UpdatePlanets`) the planet at each place has the velocity gravity gave it in
this tick, and its new position is its pre-tick position plus that post-gravity velocity
times `dt`; so after every tick, for every planet, position = last trail element +
velocity * dt. -/
theorem tick_position_uses_new_velocity (sqrt : K → K) (sys : SolarSystem K) :
    (tick sqrt sys).planets.map (fun p => p.position)
        = sys.planets.map
            (fun p₀ => (p₀.position + (p₀.ApplyGravity sqrt sys.sun).velocity * dt K
              : Vector2D K))
    ∧ (tick sqrt sys).planets.map (fun p => p.velocity)
        = sys.planets.map (fun p₀ => (p₀.ApplyGravity sqrt sys.sun).velocity)
    ∧ (tick sqrt sys).planets.map (fun p => p.trail.getLast?)
        = sys.planets.map (fun p₀ => some p₀.position)
    ∧ (∀ p ∈ (tick sqrt sys).planets,
        ∃ last, p.trail.getLast? = some last ∧ p.position = last + p.velocity * dt K)
    ∧ (∀ (t : Nat), ∀ p ∈ (ticks sqrt (t + 1) sys).planets,
        ∃ last, p.trail.getLast? = some last ∧ p.position = last + p.velocity * dt K) := by
  have hall : ∀ (s : SolarSystem K), ∀ p ∈ (tick sqrt s).planets,
      ∃ last, p.trail.getLast? = some last ∧ p.position = last + p.velocity * dt K := by
    intro s p hp
    rw [tick_planets, List.mem_map] at hp
    obtain ⟨p₀, -, rfl⟩ := hp
    obtain ⟨h1, h2⟩ := planetTick_position sqrt s.sun p₀
    exact ⟨p₀.position, h1, h2⟩
  refine ⟨?_, ?_, ?_, hall sys, fun t => hall (ticks sqrt t sys)⟩
  · rw [tick_planets, List.map_map]
    rfl
  · rw [tick_planets, List.map_map]
    rfl
  · rw [tick_planets, List.map_map]
    apply List.map_congr_left
    intro p₀ _
    exact (planetTick_position sqrt sys.sun p₀).1

/-- C17: `Planet::ApplyGravity` writes only the body's velocity (mass, position and trail
stay), and `SolarSystem::ApplyGravity` changes no planet's mass, position or trail, keeps
the number and the order of the planets (the planet at each place is the old planet at
that place with a new velocity), and leaves the sun and the size untouched. -/
theorem ApplyGravity_writes_only_velocity (sqrt : K → K) (b sun : Planet K)
    (sys : SolarSystem K) :
    (b.ApplyGravity sqrt sun).mass = b.mass
    ∧ (b.ApplyGravity sqrt sun).position = b.position
    ∧ (b.ApplyGravity sqrt sun).trail = b.trail
    ∧ b.ApplyGravity sqrt sun = { b with velocity := (b.ApplyGravity sqrt sun).velocity }
    ∧ (sys.ApplyGravity sqrt).sun = sys.sun
    ∧ (sys.ApplyGravity sqrt).size = sys.size
    ∧ (sys.ApplyGravity sqrt).planets.length = sys.planets.length
    ∧ (sys.ApplyGravity sqrt).planets.map (fun p => p.mass) = sys.planets.map (fun p => p.mass)
    ∧ (sys.ApplyGravity sqrt).planets.map (fun p => p.position)
        = sys.planets.map (fun p => p.position)
    ∧ (sys.ApplyGravity sqrt).planets.map (fun p => p.trail)
        = sys.planets.map (fun p => p.trail)
    ∧ (∀ j : Nat, (sys.ApplyGravity sqrt).planets[j]?
        = (sys.planets[j]?).map (fun p => { p with velocity := (p.ApplyGravity sqrt sys.sun).velocity })) := by
  refine ⟨rfl, rfl, rfl, rfl, rfl, rfl, ?_, ?_, ?_, ?_, ?_⟩
  · simp [SolarSystem.ApplyGravity]
  · simp only [SolarSystem.ApplyGravity, List.map_map]
    rfl
  · simp only [SolarSystem.ApplyGravity, List.map_map]
    rfl
  · simp only [SolarSystem.ApplyGravity, List.map_map]
    rfl
  · intro j
    simp only [SolarSystem.ApplyGravity, List.getElem?_map]
    rfl

/-- The interleaved loop maps `planetTick` over the planets. -/
theorem interleavedLoop_eq_map (sqrt : K → K) (sun : Planet K) (l : List (Planet K)) :
    interleavedLoop sqrt sun l = l.map (planetTick sqrt sun) := by
  induction l with
  | nil => rfl
  | cons planet rest ih =>
    rw [interleavedLoop, ih]
    rfl

/-- C19: the two-pass tick (`SolarSystem::ApplyGravity` over all planets, then
`SolarSystem::UpdatePlanets` over all planets) produces exactly the same system state as
the interleaved tick, which calls `Planet::ApplyGravity(sun)` immediately followed by
`Planet::Move` on each planet in turn. -/
theorem tick_eq_interleavedTick (sqrt : K → K) (sys : SolarSystem K) :
    tick sqrt sys = interleavedTick sqrt sys := by
  have h := tick_planets sqrt sys
  rw [← interleavedLoop_eq_map] at h
  cases hs : tick sqrt sys with
  | mk planets sun size =>
    have hp : (tick sqrt sys).planets = planets := by rw [hs]
    have hsun : (tick sqrt sys).sun = sun := by rw [hs]
    have hsize : (tick sqrt sys).size = size := by rw [hs]
    rw [← hp, ← hsun, ← hsize, h]
    rfl

end effects

/-! ## Frames -/

section frames

variable {K : Type}

/-- Writing one record per element of a list on a stream appends the records in order. -/
theorem foldl_fprintf {α : Type} (g : α → Record K) (l : List α) (out : List (Record K)) :
    l.foldl (fun f x => fprintf f (g x)) (some out) = some (out ++ l.map g) := by
  induction l generalizing out with
  | nil => simp
  | cons a l ih =>
    rw [List.foldl_cons]
    show l.foldl (fun f x => fprintf f (g x)) (some (out ++ [g a])) = _
    rw [ih]
    simp

/-- Writing all trails, each closed by a blank record, appends them planet by planet. -/
theorem foldl_trails (planets : List (Planet K)) (out : List (Record K)) :
    planets.foldl
        (fun f planet =>
          fprintf (planet.trail.foldl (fun f pos => fprintf f (Record.point pos.x pos.y)) f)
            Record.blank) (some out)
      = some (out ++ planets.flatMap (fun planet =>
          planet.trail.map (fun pos => Record.point pos.x pos.y) ++ [Record.blank])) := by
  induction planets generalizing out with
  | nil => simp
  | cons planet rest ih =>
    rw [List.foldl_cons, foldl_fprintf]
    show rest.foldl _ (some (out ++ planet.trail.map (fun pos => Record.point pos.x pos.y)
      ++ [Record.blank])) = _
    rw [ih]
    simp

/-- On a stream, `SolarSystem::StoreFrame` appends the snapshot of the system. -/
theorem StoreFrame_some (sys : SolarSystem K) (out : List (Record K)) :
    sys.StoreFrame (some out) = some (out ++ sys.snapshot) := by
  simp only [SolarSystem.StoreFrame]
  show fprintf (sys.planets.foldl _ (fprintf (sys.planets.foldl _
    (some (out ++ [Record.point sys.sun.position.x sys.sun.position.y] ++ [Record.e])))
    Record.e)) Record.e = _
  rw [foldl_fprintf]
  show fprintf (sys.planets.foldl _ (some (_ ++ [Record.e]))) Record.e = _
  rw [foldl_trails]
  simp [fprintf, SolarSystem.snapshot]

end frames

section frameLoop

variable {K : Type} [Add K] [Sub K] [Mul K] [Div K] [OfScientific K]

/-- One pass through the loop body on a stream writes the plot command and then the
snapshot of the system the tick has produced. -/
theorem frameBody_gnuplotPipe (sqrt : K → K) (run : Run K) (frame : Nat)
    (o : List (Record K)) (h : run.gnuplotPipe = some o) :
    (frameBody sqrt run frame).gnuplotPipe
      = some (o ++ Record.plot :: (SolarSystem.tick sqrt run.solarSystem).snapshot) := by
  show (SolarSystem.tick sqrt run.solarSystem).StoreFrame (fprintf run.gnuplotPipe Record.plot)
    = _
  rw [h]
  show (SolarSystem.tick sqrt run.solarSystem).StoreFrame (some (o ++ [Record.plot])) = _
  rw [StoreFrame_some]
  simp

/-- The frame loop run for `n` frames on a stream writes `n` frames: the `i`-th is the
plot command followed by the snapshot of the system after `i + 1` ticks. -/
theorem frameLoop_gnuplotPipe (sqrt : K → K) (run : Run K) (o : List (Record K))
    (h : run.gnuplotPipe = some o) (n : Nat) :
    ((List.range n).foldl (frameBody sqrt) run).gnuplotPipe
      = some (o ++ ((List.range n).map (fun i =>
          Record.plot :: (SolarSystem.ticks sqrt (i + 1) run.solarSystem).snapshot)).flatten) := by
  induction n with
  | zero => simpa using h
  | succ n ih =>
    rw [List.range_succ, List.foldl_append, List.foldl_cons, List.foldl_nil,
      frameBody_gnuplotPipe sqrt _ n _ ih, frameLoop_solarSystem, List.map_append,
      List.flatten_append]
    simp [SolarSystem.ticks]

/-- C12: on a non-null stream `SolarSystem::StoreFrame` appends, in this order: the
sun's current position and an `e` record; the current positions of the `n` planets in
collection order and an `e` record; then for every planet in collection order its whole
trail in trail order followed by a blank record, and a final `e`. On a null stream it
writes nothing. It yields the stream only and writes no member of the system: after the
loop body of `main`, which ends with `StoreFrame`, the system is as the tick left it. -/
theorem StoreFrame_emits_snapshot (sqrt : K → K) (sys : SolarSystem K)
    (out : List (Record K)) :
    sys.StoreFrame (some out)
        = some (out
            ++ [Record.point sys.sun.position.x sys.sun.position.y, Record.e]
            ++ sys.planets.map (fun planet => Record.point planet.position.x planet.position.y)
            ++ [Record.e]
            ++ sys.planets.flatMap (fun planet =>
                planet.trail.map (fun pos => Record.point pos.x pos.y) ++ [Record.blank])
            ++ [Record.e])
    ∧ sys.StoreFrame (some out) = some (out ++ sys.snapshot)
    ∧ (sys.planets.map
        (fun planet => Record.point planet.position.x planet.position.y)).length
          = sys.planets.length
    ∧ sys.StoreFrame none = none
    ∧ (∀ (run : Run K) (frame : Nat),
        (frameBody sqrt run frame).solarSystem = SolarSystem.tick sqrt run.solarSystem) := by
  refine ⟨?_, StoreFrame_some sys out, by simp, rfl, fun _ _ => rfl⟩
  rw [StoreFrame_some]
  simp [SolarSystem.snapshot]

variable [Neg K]

/-- C11: with a stream, the frame loop of `main` runs over exactly `frame_count = 250`
values of `frame`; every iteration applies one full tick and then writes one frame (the
plot command and the `StoreFrame` snapshot of the system just ticked). At the end the
system has been ticked 250 times, the stream holds the header and 250 frames, and each
of the four planets has a trail of length 250. -/
theorem main_runs_250_frames (sqrt : K → K) (out : List (Record K)) :
    frame_count = 250
    ∧ (List.range frame_count).length = 250
    ∧ (∀ (run : Run K) (frame : Nat) (o : List (Record K)), run.gnuplotPipe = some o →
        (frameBody sqrt run frame).solarSystem = SolarSystem.tick sqrt run.solarSystem
        ∧ (frameBody sqrt run frame).gnuplotPipe
            = (SolarSystem.tick sqrt run.solarSystem).StoreFrame (some (o ++ [Record.plot])))
    ∧ (main sqrt (some out)).solarSystem = SolarSystem.ticks sqrt 250 initialSystem
    ∧ (main sqrt (some out)).gnuplotPipe
        = some (out
            ++ [Record.setTerminal, Record.setOutput, Record.setXRange (10000.0 / 2.0),
                Record.setYRange (10000.0 / 2.0), Record.unsetKey, Record.setTitle]
            ++ ((List.range 250).map (fun i =>
                Record.plot :: (SolarSystem.ticks sqrt (i + 1) initialSystem).snapshot)).flatten)
    ∧ ((List.range 250).map (fun i =>
        Record.plot :: (SolarSystem.ticks sqrt (i + 1) (initialSystem : SolarSystem K)).snapshot)).length
          = 250
    ∧ (main sqrt (some out)).solarSystem.planets.length = 4
    ∧ (main sqrt (some out)).solarSystem.planets.map (fun p => p.trail.length)
        = [250, 250, 250, 250] := by
  have hsys := main_some_solarSystem sqrt out
  refine ⟨rfl, by simp [frame_count], ?_, hsys, ?_, by simp, ?_, ?_⟩
  · intro run frame o h
    refine ⟨rfl, ?_⟩
    rw [frameBody_gnuplotPipe sqrt run frame o h, StoreFrame_some]
    simp
  · simp only [main]
    exact frameLoop_gnuplotPipe sqrt _ _ (by simp [fprintf, initialSystem, SolarSystem.AddPlanet,
      SolarSystem.new]) frame_count
  · rw [hsys, ticks_planets, List.length_map]
    rfl
  · rw [hsys, ticks_planets]
    simp only [initialSystem, SolarSystem.AddPlanet, SolarSystem.new, List.nil_append,
      List.cons_append, List.map_cons, List.map_nil, iterate_planetTick_trail_length]
    simp [planet1, planet2, planet3, planet4, Planet.new]

end frameLoop

/-! ## Divisions in the gravity update -/

/-- The guarded vector division either fails on a zero divisor or is
`Vector2D::operator/`. -/
theorem Vector2D.guardedDiv_eq {K : Type} [Div K] [OfScientific K] [BEq K]
    (v : Vector2D K) (d : K) :
    v.guardedDiv d = if d == 0.0 then none else some (v / d) := by
  unfold Vector2D.guardedDiv Planets.guardedDiv
  by_cases h : (d == 0.0) = true
  · simp [h]
  · simp only [h]
    rfl

section guardedGravity

variable {K : Type} [Add K] [Sub K] [Mul K] [Div K] [OfScientific K] [BEq K]

/-- The guarded gravity update tests the three divisors `distanceMag`,
`distanceMag * distanceMag` and `mass` in this order, and when none is zero it is
`Planet::ApplyGravity`. -/
theorem ApplyGravityGuarded_eq (sqrt : K → K) (b sun : Planet K) :
    b.ApplyGravityGuarded sqrt sun
      = if sqrt ((sun.position - b.position).x * (sun.position - b.position).x
            + (sun.position - b.position).y * (sun.position - b.position).y) == 0.0
        then none
        else if sqrt ((sun.position - b.position).x * (sun.position - b.position).x
              + (sun.position - b.position).y * (sun.position - b.position).y)
            * sqrt ((sun.position - b.position).x * (sun.position - b.position).x
              + (sun.position - b.position).y * (sun.position - b.position).y) == 0.0
        then none
        else if b.mass == 0.0 then none
        else some (b.ApplyGravity sqrt sun) := by
  unfold Planet.ApplyGravityGuarded
  simp only [Vector2D.guardedDiv_eq, Planets.guardedDiv]
  split_ifs <;> rfl

end guardedGravity

/-- Over the reals the test `d == 0.0` holds exactly when `d = 0`. -/
theorem real_beq_zero (d : ℝ) : (d == (0.0 : ℝ)) = true ↔ d = 0 := by
  rw [beq_iff_eq]
  norm_num

/-- C18 amended: over the reals, for a body of positive mass, the divisors of
`Planet::ApplyGravity` (`distanceMag`, `distanceMag * distanceMag` and `mass`) are all
non-zero if and only if the body's position differs from the sun's; so the update with
guarded divisions returns the result of `Planet::ApplyGravity` exactly when the positions
differ, and refuses exactly at zero separation. -/
theorem ApplyGravity_divisors_real (b sun : Planet ℝ) (hm : 0 < b.mass) :
    ((Real.sqrt ((sun.position - b.position).x * (sun.position - b.position).x
          + (sun.position - b.position).y * (sun.position - b.position).y) ≠ 0
        ∧ Real.sqrt ((sun.position - b.position).x * (sun.position - b.position).x
            + (sun.position - b.position).y * (sun.position - b.position).y)
          * Real.sqrt ((sun.position - b.position).x * (sun.position - b.position).x
            + (sun.position - b.position).y * (sun.position - b.position).y) ≠ 0
        ∧ b.mass ≠ 0)
      ↔ b.position ≠ sun.position)
    ∧ (b.ApplyGravityGuarded Real.sqrt sun = some (b.ApplyGravity Real.sqrt sun)
      ↔ b.position ≠ sun.position)
    ∧ (b.ApplyGravityGuarded Real.sqrt sun = none ↔ b.position = sun.position) := by
  have hm0 : b.mass ≠ 0 := ne_of_gt hm
  have hiff : Real.sqrt ((sun.position - b.position).x * (sun.position - b.position).x
        + (sun.position - b.position).y * (sun.position - b.position).y) ≠ 0
      ↔ b.position ≠ sun.position := by
    rw [distanceMag_eq]
    constructor
    · intro h heq
      apply h
      rw [heq]
      simp
    · intro hne
      exact ne_of_gt (distanceMag_pos b.position sun.position (fun e => hne e.symm))
  have hguard := ApplyGravityGuarded_eq Real.sqrt b sun
  simp only [real_beq_zero] at hguard
  refine ⟨?_, ?_, ?_⟩
  · rw [← hiff]
    constructor
    · intro h
      exact h.1
    · intro h
      exact ⟨h, mul_ne_zero h h, hm0⟩
  · rw [← hiff, hguard]
    constructor
    · intro h h0
      rw [if_pos h0] at h
      exact Option.noConfusion h
    · intro h
      rw [if_neg h, if_neg (mul_ne_zero h h), if_neg hm0]
  · rw [← not_iff_not, ← ne_eq, ← ne_eq, ← hiff, hguard]
    constructor
    · intro h h0
      rw [if_pos h0] at h
      exact h rfl
    · intro h
      rw [if_neg h, if_neg (mul_ne_zero h h), if_neg hm0]
      exact Option.some_ne_none _

/-- C18 amended, at a concrete input: a body of mass 2 at the origin and a sun at
`(3, 4)`; the guarded update succeeds. -/
theorem ApplyGravity_divisors_real_witness :
    Planet.ApplyGravityGuarded Real.sqrt (⟨2, ⟨0, 0⟩, ⟨1, 1⟩, []⟩ : Planet ℝ)
        ⟨5, ⟨3, 4⟩, ⟨0, 0⟩, []⟩
      = some (Planet.ApplyGravity Real.sqrt (⟨2, ⟨0, 0⟩, ⟨1, 1⟩, []⟩ : Planet ℝ)
        ⟨5, ⟨3, 4⟩, ⟨0, 0⟩, []⟩) :=
  (ApplyGravity_divisors_real ⟨2, ⟨0, 0⟩, ⟨1, 1⟩, []⟩ ⟨5, ⟨3, 4⟩, ⟨0, 0⟩, []⟩
    (by norm_num)).2.1.mpr (by intro h; have := congrArg Vector2D.x h; norm_num at this)

/-! ## Gravity on doubles -/

/-- C2, as stated, fails on doubles: two bodies of masses 1 and 3, both at the origin at
rest, under a sun of mass 5 at `(3, 4)`, leave `Planet::ApplyGravity` with velocities
whose `y` components differ in the last binary digit. -/
theorem ApplyGravity_mass_dependent_double :
    (Planet.ApplyGravity Double.sqrt (⟨1.0, ⟨0.0, 0.0⟩, ⟨0.0, 0.0⟩, []⟩ : Planet Double)
        ⟨5.0, ⟨3.0, 4.0⟩, ⟨0.0, 0.0⟩, []⟩).velocity
      = ⟨Double.finite false 8646911284551352 (-57), Double.finite false 5764607523034236 (-56)⟩
    ∧ (Planet.ApplyGravity Double.sqrt (⟨3.0, ⟨0.0, 0.0⟩, ⟨0.0, 0.0⟩, []⟩ : Planet Double)
        ⟨5.0, ⟨3.0, 4.0⟩, ⟨0.0, 0.0⟩, []⟩).velocity
      = ⟨Double.finite false 8646911284551352 (-57), Double.finite false 5764607523034235 (-56)⟩
    ∧ (Planet.ApplyGravity Double.sqrt (⟨1.0, ⟨0.0, 0.0⟩, ⟨0.0, 0.0⟩, []⟩ : Planet Double)
        ⟨5.0, ⟨3.0, 4.0⟩, ⟨0.0, 0.0⟩, []⟩).velocity
      ≠ (Planet.ApplyGravity Double.sqrt (⟨3.0, ⟨0.0, 0.0⟩, ⟨0.0, 0.0⟩, []⟩ : Planet Double)
        ⟨5.0, ⟨3.0, 4.0⟩, ⟨0.0, 0.0⟩, []⟩).velocity := by
  refine ⟨by decide!, by decide!, by decide!⟩

/-- C18, as stated, fails on doubles: a body of mass 1e3 at the origin and a sun of mass
1e8 at `(1e-200, 1e-200)` are at different positions, yet the squares underflow, the
divisor `distanceMag` is zero, the guarded update refuses, and `Planet::ApplyGravity`
writes an infinite velocity. -/
theorem ApplyGravity_zero_divisor_double :
    (⟨0.0, 0.0⟩ : Vector2D Double) ≠ ⟨1e-200, 1e-200⟩
    ∧ (1e3 : Double) = Double.finite false 8796093022208000 (-43)
    ∧ Double.sqrt (((1e-200 : Double) - 0.0) * ((1e-200 : Double) - 0.0)
        + ((1e-200 : Double) - 0.0) * ((1e-200 : Double) - 0.0)) = Double.finite false 0 (-1074)
    ∧ Planet.ApplyGravityGuarded Double.sqrt
        (⟨1e3, ⟨0.0, 0.0⟩, ⟨0.0, 0.0⟩, []⟩ : Planet Double)
        ⟨1e8, ⟨1e-200, 1e-200⟩, ⟨0.0, 0.0⟩, []⟩ = none
    ∧ (Planet.ApplyGravity Double.sqrt (⟨1e3, ⟨0.0, 0.0⟩, ⟨0.0, 0.0⟩, []⟩ : Planet Double)
        ⟨1e8, ⟨1e-200, 1e-200⟩, ⟨0.0, 0.0⟩, []⟩).velocity
      = ⟨Double.inf false, Double.inf false⟩ := by
  refine ⟨by decide!, by decide!, by decide!, by decide!, by decide!⟩

end Planets
